import Mathlib

/-!
Shallow embedding of the `go-errors` structured-error library
(package `errors` of agilira/go-errors) and proofs about it.

Sources embedded:
  * `errors.go`    — the `Error` struct and the constructors `New`,
    `NewWithField`, `NewWithContext`;
  * `helpers.go`   — `Wrap`, `Error`/`Unwrap` methods, `RootCause`,
    `HasCode`, `Is`, `As`, `validateErrorCode`;
  * `usermsg.go`   — the builder mutators and the accessor methods;
  * `stacktrace.go` — `Stacktrace` and its rendering;
  * `json.go`      — `MarshalJSON`.

Modelling conventions: Go machine pointers (`uintptr` stack-frame tokens)
become `Nat`; the nondeterministic inputs of a constructor (current time,
captured stack, runtime frame resolution) are passed as explicit arguments;
a nullable `error` interface value becomes `Option GoErr`, where `GoErr`
distinguishes a library `*Error` from a foreign ("native") error.
-/

namespace GoErrors

/-- JSON-like values: the model both of Go's `interface{}` context values and
of the output of `MarshalJSON`. -/
inductive Json where
  | str (s : String)
  | num (n : Nat)
  | boolean (b : Bool)
  | obj (fields : List (String × Json))
  | null

/-- `ErrorCode` from `errors.go`: `type ErrorCode string`. -/
abbrev ErrorCode := String

/-- `Stacktrace` from `stacktrace.go`: a slice of program counters
(`Frames []uintptr`), with `uintptr` modelled as `Nat`. -/
structure Stacktrace where
  frames : List Nat
deriving Repr, DecidableEq

/-- The fields of the Go struct `Error` (`errors.go`), in declaration order,
parameterised by the type of the `Cause` link so that the knot with `GoErr`
can be tied below.  `Timestamp time.Time` is modelled as a `Nat` instant;
`Context map[string]interface{}` (a nullable Go map) is modelled as an
optional association list. -/
structure ErrorF (α : Type) where
  code : ErrorCode
  message : String
  field : String
  value : String
  context : Option (List (String × Json))
  timestamp : Nat
  cause : Option α
  severity : String
  stack : Option Stacktrace
  userMsg : String
  retryable : Bool

/-- A Go `error` interface value that is not nil: either the library's
`*Error` or a foreign error (e.g. one made by the standard `errors.New`),
which carries only its message string. -/
inductive GoErr where
  | lib (e : ErrorF GoErr)
  | native (msg : String)

/-- The library's `*Error` type. -/
abbrev Error := ErrorF GoErr

/-- Modelled from the spec: the sentinel error code `UNKNOWN_ERROR`
substituted for invalid codes.  The constant `DefaultErrorCode` is declared
in a file of the repository that is not part of the sources here (it is
referenced by `helpers.go` and asserted by the tests); the spec fixes its
value as `UNKNOWN_ERROR`. -/
def DefaultErrorCode : ErrorCode := "UNKNOWN_ERROR"

/-- Modelled from the spec: severity constant `critical` (declared outside
the available sources, value asserted by `TestSeverityConstants`). -/
def SeverityCritical : String := "critical"

/-- Modelled from the spec: severity constant `error`. -/
def SeverityError : String := "error"

/-- Modelled from the spec: severity constant `warning`. -/
def SeverityWarning : String := "warning"

/-- Modelled from the spec: severity constant `info`. -/
def SeverityInfo : String := "info"

/-- `validateErrorCode` from `helpers.go`: a code is valid iff it is
non-empty and contains some rune other than space, tab, newline, carriage
return.  The Go `for _, r := range s` rune loop that returns `true` at the
first non-whitespace rune is the `List.any` over the string's characters. -/
def validateErrorCode (code : ErrorCode) : Bool :=
  if code.data.isEmpty then false
  else code.data.any fun r => r != ' ' && r != '\t' && r != '\n' && r != '\r'

/-- `New` from `errors.go`: builds the struct literal
`&Error{Code: code, Message: message, Timestamp: time.Now(),
Severity: "error", Context: make(map[string]interface{})}`.
Note: this constructor performs no code validation.  The current time is
the explicit argument `now`; `make(...)` is the empty (non-nil) map. -/
def New (code : ErrorCode) (message : String) (now : Nat) : Error :=
  { code := code, message := message, field := "", value := "",
    context := some [], timestamp := now, cause := none,
    severity := "error", stack := none, userMsg := "", retryable := false }

/-- `NewWithField` from `errors.go`: like `New` with `Field`/`Value` set.
No code validation is performed. -/
def NewWithField (code : ErrorCode) (message field value : String)
    (now : Nat) : Error :=
  { code := code, message := message, field := field, value := value,
    context := some [], timestamp := now, cause := none,
    severity := "error", stack := none, userMsg := "", retryable := false }

/-- `NewWithContext` from `errors.go`: stores the caller-supplied context
map directly (possibly nil, modelled as `none`).  No code validation. -/
def NewWithContext (code : ErrorCode) (message : String)
    (context : Option (List (String × Json))) (now : Nat) : Error :=
  { code := code, message := message, field := "", value := "",
    context := context, timestamp := now, cause := none,
    severity := "error", stack := none, userMsg := "", retryable := false }

/-- `Wrap` from `helpers.go`: replaces an invalid code by
`DefaultErrorCode`, then builds the struct with `Cause: err`,
`Severity: SeverityError`, an empty context map, and the stack snapshot
`CaptureStacktrace(1)` (the captured snapshot is the explicit argument
`stack`; `CaptureStacktrace` never returns nil). -/
def Wrap (err : Option GoErr) (code : ErrorCode) (message : String)
    (now : Nat) (stack : Stacktrace) : Error :=
  let c := if !validateErrorCode code then DefaultErrorCode else code
  { code := c, message := message, field := "", value := "",
    context := some [], timestamp := now, cause := err,
    severity := SeverityError, stack := some stack, userMsg := "",
    retryable := false }

/-- The `Unwrap` method of `*Error` from `helpers.go`: returns `e.Cause`. -/
def Error.unwrap (e : Error) : Option GoErr :=
  e.cause

/-- The standard library's `errors.Unwrap` on a non-nil error: calls the
`Unwrap` method when the dynamic type has one (`*Error` does, a native
error does not). -/
def goUnwrap : GoErr → Option GoErr
  | .lib e => e.cause
  | .native _ => none

/-- The standard library's `errors.Unwrap` on a possibly-nil error:
the type assertion on a nil interface fails, yielding nil. -/
def goUnwrapOpt : Option GoErr → Option GoErr
  | none => none
  | some e => goUnwrap e

/-- A cause is smaller than the error holding it — the measure used for the
chain-walking recursions below. -/
theorem sizeOf_lt_of_cause {e : ErrorF GoErr} {c : GoErr}
    (h : e.cause = some c) : sizeOf c < sizeOf e := by
  obtain ⟨code, message, f, v, context, timestamp, cause, severity, stack,
    userMsg, retryable⟩ := e
  simp only [ErrorF.cause] at h
  subst h
  simp
  omega

/-- The loop body of `RootCause` from `helpers.go`, started on a non-nil
error: keep taking `errors.Unwrap` until it yields nil and return the last
non-nil error. -/
def RootCauseGo : GoErr → GoErr
  | .native msg => .native msg
  | .lib e =>
    match h : e.cause with
    | none => .lib e
    | some c => RootCauseGo c
termination_by e => sizeOf e
decreasing_by
  simp only [GoErr.lib.sizeOf_spec]
  have := sizeOf_lt_of_cause h
  omega

/-- `RootCause` from `helpers.go` on a possibly-nil argument.  On nil the
first `errors.Unwrap` already yields nil and nil is returned. -/
def RootCause : Option GoErr → Option GoErr
  | none => none
  | some e => some (RootCauseGo e)

/-- `HasCode` from `helpers.go`, started on a non-nil error: walk the chain
with `errors.Unwrap`, returning true at the first link whose dynamic type
is `*Error` and whose `Code` equals the target. -/
def HasCodeGo : GoErr → ErrorCode → Bool
  | .native _, _ => false
  | .lib e, code =>
    if e.code == code then true
    else
      match h : e.cause with
      | none => false
      | some c => HasCodeGo c code
termination_by e _ => sizeOf e
decreasing_by
  simp only [GoErr.lib.sizeOf_spec]
  have := sizeOf_lt_of_cause h
  omega

/-- `HasCode` from `helpers.go` on a possibly-nil argument (`for err != nil`
loops zero times on nil). -/
def HasCode : Option GoErr → ErrorCode → Bool
  | none, _ => false
  | some e, code => HasCodeGo e code

/-- The `Is` method of `*Error` from `helpers.go`: false on a nil target,
code comparison when the target's dynamic type is `*Error`, false
otherwise. -/
def Error.is (e : Error) : Option GoErr → Bool
  | none => false
  | some (.lib te) => e.code == te.code
  | some (.native _) => false

/-- The kinds of target slot one can pass to the standard `errors.As`:
a `**Error` slot, a slot of the concrete native error type, or an
`*error`-interface slot (which every error is assignable to). -/
inductive Target where
  | libSlot
  | nativeSlot
  | errSlot

/-- Assignability of a chain link's dynamic type to a target slot, the test
`reflectlite.TypeOf(err).AssignableTo(targetType)` inside `errors.As`. -/
def targetMatches : GoErr → Target → Bool
  | .lib _, .libSlot => true
  | .native _, .nativeSlot => true
  | _, .errSlot => true
  | .lib _, .nativeSlot => false
  | .native _, .libSlot => false

/-- The standard library's `errors.As` search: nil errors match nothing;
otherwise walk the unwrap chain and assign the first link assignable to the
target slot.  Returns the assigned link (`none` models returning false).
(`errors.As` also tries each link's own `As` method; for `*Error` that
method delegates to the same cause chain, so the plain walk is
extensionally the same search.) -/
def errorsAs : Option GoErr → Target → Option GoErr
  | none, _ => none
  | some (.native msg), t =>
    if targetMatches (.native msg) t then some (.native msg) else none
  | some (.lib e), t =>
    if targetMatches (.lib e) t then some (.lib e)
    else
      match h : e.cause with
      | none => none
      | some c => errorsAs (some c) t
termination_by e _ => sizeOf e
decreasing_by
  simp only [Option.some.sizeOf_spec, GoErr.lib.sizeOf_spec]
  have := sizeOf_lt_of_cause h
  omega

/-- The `As` method of `*Error` from `helpers.go`:
`errors.As(e.Cause, target)` — the search starts at the cause, never at the
receiver. -/
def Error.as (e : Error) (t : Target) : Option GoErr :=
  errorsAs e.cause t

/-- The links of a cause chain starting at a non-nil error, head first:
the error itself, then everything reachable by `errors.Unwrap`. -/
def chainLinks : GoErr → List GoErr
  | .native msg => [.native msg]
  | .lib e =>
    .lib e ::
      (match h : e.cause with
       | none => []
       | some c => chainLinks c)
termination_by e => sizeOf e
decreasing_by
  simp only [GoErr.lib.sizeOf_spec]
  have := sizeOf_lt_of_cause h
  omega

/-- The links of the cause chain of a possibly-nil error. -/
def chain : Option GoErr → List GoErr
  | none => []
  | some e => chainLinks e

/-- Whether a chain link is a `*Error` carrying the given code — the test
inside `HasCode`'s loop. -/
def linkHasCode (code : ErrorCode) : GoErr → Bool
  | .lib e => e.code == code
  | .native _ => false

/-- `WithUserMessage` from `usermsg.go`: sets `e.UserMsg = msg` in place and
returns the receiver. -/
def Error.withUserMessage (e : Error) (msg : String) : Error :=
  { e with userMsg := msg }

/-- Go map assignment `m[key] = value` on the association-list model:
overwrite the entry with that key, or append a new entry. -/
def ctxSet : List (String × Json) → String → Json → List (String × Json)
  | [], k, v => [(k, v)]
  | (k0, v0) :: rest, k, v =>
    if k0 == k then (k, v) :: rest else (k0, v0) :: ctxSet rest k v

/-- `WithContext` from `usermsg.go`: allocates the context map if it is nil,
then assigns `e.Context[key] = value` and returns the receiver. -/
def Error.withContext (e : Error) (key : String) (value : Json) : Error :=
  let ctx := match e.context with
    | none => []
    | some c => c
  { e with context := some (ctxSet ctx key value) }

/-- `AsRetryable` from `usermsg.go`: sets `e.Retryable = true` and returns
the receiver. -/
def Error.asRetryable (e : Error) : Error :=
  { e with retryable := true }

/-- `WithSeverity` from `usermsg.go`: sets `e.Severity = severity` and
returns the receiver. -/
def Error.withSeverity (e : Error) (severity : String) : Error :=
  { e with severity := severity }

/-- `UserMessage` from `usermsg.go`: the user-facing message if non-empty,
else the technical message. -/
def Error.userMessage (e : Error) : String :=
  if e.userMsg != "" then e.userMsg else e.message

/-- `ErrorCode` accessor method from `usermsg.go`. -/
def Error.errorCode (e : Error) : ErrorCode :=
  e.code

/-- `IsRetryable` from `usermsg.go`. -/
def Error.isRetryable (e : Error) : Bool :=
  e.retryable

/-- `WithCriticalSeverity` from `usermsg.go`: delegates to `WithSeverity`
with `SeverityCritical`. -/
def Error.withCriticalSeverity (e : Error) : Error :=
  e.withSeverity SeverityCritical

/-- `WithWarningSeverity` from `usermsg.go`: delegates to `WithSeverity`
with `SeverityWarning`. -/
def Error.withWarningSeverity (e : Error) : Error :=
  e.withSeverity SeverityWarning

/-- `WithInfoSeverity` from `usermsg.go`: delegates to `WithSeverity` with
`SeverityInfo`. -/
def Error.withInfoSeverity (e : Error) : Error :=
  e.withSeverity SeverityInfo

/-- One frame's text inside `(*Stacktrace).String()` from `stacktrace.go`:
`<function>\n\t<file>:<line>\n`.  `resolve` is the runtime's program-counter
resolution (`runtime.CallersFrames`), giving function name, file path and
line number. -/
def renderFrame (resolve : Nat → String × String × Nat) (pc : Nat) : String :=
  let r := resolve pc
  r.1 ++ "\n\t" ++ r.2.1 ++ ":" ++ toString r.2.2 ++ "\n"

/-- `(*Stacktrace).String()` from `stacktrace.go` (the receiver may be nil,
hence `Option`): empty on a nil receiver or zero frames, otherwise the
frames' texts concatenated in capture order. -/
def Stacktrace.render (resolve : Nat → String × String × Nat) :
    Option Stacktrace → String
  | none => ""
  | some s =>
    if s.frames.isEmpty then ""
    else List.foldl (fun acc pc => acc ++ renderFrame resolve pc) "" s.frames

/-- The object built by `MarshalJSON` from `json.go`, with the serialized
cause precomputed (`causeJson`).  The embedded `*Alias` contributes every
field of `Error` under its declared JSON name with its `omitempty` rule
(`field`, `value`, `context`, `cause`, `user_msg`, `retryable` omitted when
empty/zero; a Go map is "empty" when nil or of length zero); the outer
`Stack string` field shadows the alias's `stack` and emits the rendered
text, omitted when that text is empty. -/
def marshalFields (resolve : Nat → String × String × Nat) (e : Error)
    (causeJson : Option Json) : List (String × Json) :=
  [("code", Json.str e.code), ("message", Json.str e.message)]
  ++ (if e.field == "" then [] else [("field", Json.str e.field)])
  ++ (if e.value == "" then [] else [("value", Json.str e.value)])
  ++ (match e.context with
      | none => []
      | some ctx => if ctx.isEmpty then [] else [("context", Json.obj ctx)])
  ++ [("timestamp", Json.num e.timestamp)]
  ++ (match causeJson with
      | none => []
      | some j => [("cause", j)])
  ++ [("severity", Json.str e.severity)]
  ++ (if e.userMsg == "" then [] else [("user_msg", Json.str e.userMsg)])
  ++ (if e.retryable then [("retryable", Json.boolean true)] else [])
  ++ (let s := Stacktrace.render resolve e.stack
      if s == "" then [] else [("stack", Json.str s)])

/-- How `encoding/json` serializes the `Cause` interface value: a `*Error`
through its own `MarshalJSON`, a native error (a struct with no exported
fields) as the empty object. -/
def marshalCause (resolve : Nat → String × String × Nat) : GoErr → Json
  | .native _ => .obj []
  | .lib e =>
    .obj (marshalFields resolve e
      (match h : e.cause with
       | none => none
       | some c => some (marshalCause resolve c)))
termination_by e => sizeOf e
decreasing_by
  simp only [GoErr.lib.sizeOf_spec]
  have := sizeOf_lt_of_cause h
  omega

/-- `MarshalJSON` from `json.go`, as the association list of emitted JSON
keys and values. -/
def Error.marshalJSON (resolve : Nat → String × String × Nat) (e : Error) :
    List (String × Json) :=
  marshalFields resolve e
    (match e.cause with
     | none => none
     | some c => some (marshalCause resolve c))

/-! ## Helper lemmas: unfolding the chain-walking recursions -/

/-- A chain starting at a non-nil error has at least that error in it. -/
theorem chainLinks_ne_nil (e : GoErr) : chainLinks e ≠ [] := by
  cases e <;> simp [chainLinks]

/-- Chain of a `*Error` with nil cause. -/
theorem chainLinks_lib_none {e : Error} (h : e.cause = none) :
    chainLinks (.lib e) = [.lib e] := by
  rw [chainLinks]
  split
  · rfl
  · simp_all

/-- Chain of a `*Error` with a cause. -/
theorem chainLinks_lib_some {e : Error} {c : GoErr} (h : e.cause = some c) :
    chainLinks (.lib e) = .lib e :: chainLinks c := by
  rw [chainLinks]
  split
  · simp_all
  · simp_all

/-- `RootCause` stops at a `*Error` with nil cause. -/
theorem rootCauseGo_lib_none {e : Error} (h : e.cause = none) :
    RootCauseGo (.lib e) = .lib e := by
  rw [RootCauseGo]
  split
  · rfl
  · simp_all

/-- `RootCause` steps into a non-nil cause. -/
theorem rootCauseGo_lib_some {e : Error} {c : GoErr} (h : e.cause = some c) :
    RootCauseGo (.lib e) = RootCauseGo c := by
  rw [RootCauseGo]
  split
  · simp_all
  · simp_all

/-- One step of `HasCode` on a `*Error` link. -/
theorem hasCodeGo_lib (e : Error) (code : ErrorCode) :
    HasCodeGo (.lib e) code =
      (e.code == code ||
        match e.cause with
        | none => false
        | some c => HasCodeGo c code) := by
  rw [HasCodeGo]
  by_cases hc : e.code == code
  · simp [hc]
  · simp only [hc, if_false, Bool.false_or]
    split <;> split <;> simp_all

/-- `errors.As` steps into a non-nil cause when the current link does not
match the target slot. -/
theorem errorsAs_lib_nomatch {e : Error} {t : Target} {c : GoErr}
    (hm : targetMatches (.lib e) t = false) (h : e.cause = some c) :
    errorsAs (some (.lib e)) t = errorsAs (some c) t := by
  rw [errorsAs]
  simp only [hm, Bool.false_eq_true, if_false]
  split
  · simp_all
  · simp_all

/-- Anything `errors.As` assigns comes from the chain it searched. -/
theorem errorsAs_mem_chain (err : Option GoErr) (t : Target) (r : GoErr)
    (h : errorsAs err t = some r) : r ∈ chain err := by
  induction err, t using errorsAs.induct with
  | case1 t => simp [errorsAs] at h
  | case2 msg t hm =>
    simp [errorsAs, hm] at h
    subst h
    simp [chain, chainLinks]
  | case3 msg t hm =>
    simp [errorsAs, hm] at h
  | case4 e t hm =>
    rw [errorsAs] at h
    simp only [hm, if_pos, Option.some.injEq] at h
    subst h
    simp [chain, chainLinks]
  | case5 e t hm hc =>
    rw [errorsAs] at h
    simp only [hm, Bool.false_eq_true, if_false] at h
    split at h
    · exact absurd h (by simp)
    · simp_all
  | case6 e t hm c hc ih =>
    rw [errorsAs_lib_nomatch (by simpa using hm) hc] at h
    have := ih h
    simp only [chain] at this ⊢
    rw [chainLinks_lib_some hc]
    exact List.mem_cons_of_mem _ this

/-- The error `RootCause` returns has no further cause. -/
theorem goUnwrap_rootCauseGo (e : GoErr) : goUnwrap (RootCauseGo e) = none := by
  induction e using RootCauseGo.induct with
  | case1 msg => simp [RootCauseGo, goUnwrap]
  | case2 e h => rw [rootCauseGo_lib_none h]; simp [goUnwrap, h]
  | case3 e c h ih => rw [rootCauseGo_lib_some h]; exact ih

/-- `RootCause` returns the last link of the cause chain. -/
theorem getLast?_chainLinks (e : GoErr) :
    (chainLinks e).getLast? = some (RootCauseGo e) := by
  induction e using RootCauseGo.induct with
  | case1 msg => simp [chainLinks, RootCauseGo]
  | case2 e h => rw [chainLinks_lib_none h, rootCauseGo_lib_none h]; rfl
  | case3 e c h ih =>
    rw [chainLinks_lib_some h, rootCauseGo_lib_some h]
    obtain ⟨x, xs, hx⟩ := List.exists_cons_of_ne_nil (chainLinks_ne_nil c)
    rw [hx] at ih ⊢
    rw [List.getLast?_cons_cons]
    exact ih

/-- `HasCode`'s loop is the boolean search over the chain's links. -/
theorem hasCodeGo_eq_any (e : GoErr) (code : ErrorCode) :
    HasCodeGo e code = (chainLinks e).any (linkHasCode code) := by
  induction e using RootCauseGo.induct with
  | case1 msg => simp [HasCodeGo, chainLinks, linkHasCode]
  | case2 e h =>
    rw [hasCodeGo_lib, chainLinks_lib_none h]
    simp [h, linkHasCode]
  | case3 e c h ih =>
    rw [hasCodeGo_lib, chainLinks_lib_some h]
    simp [h, linkHasCode, ih]

/-! ## Helper lemmas: JSON serialization -/

/-- Association lookup distributes over list append. -/
theorem lookup_append (k : String) (l₁ l₂ : List (String × Json)) :
    List.lookup k (l₁ ++ l₂) = (List.lookup k l₁).or (List.lookup k l₂) := by
  induction l₁ with
  | nil => simp [List.lookup]
  | cons p rest ih =>
    obtain ⟨k0, v0⟩ := p
    by_cases h : k == k0
    · simp [List.lookup, h]
    · simp [List.lookup, h, ih]

/-- The emitted `stack` entry is exactly the rendered text, and it is absent
exactly when that text is empty. -/
theorem lookup_stack_marshalFields (resolve : Nat → String × String × Nat)
    (e : Error) (cj : Option Json) :
    List.lookup "stack" (marshalFields resolve e cj) =
      (if Stacktrace.render resolve e.stack = "" then none
       else some (Json.str (Stacktrace.render resolve e.stack))) := by
  simp only [marshalFields, lookup_append]
  repeat' split
  all_goals simp_all [List.lookup]

/-- The `field` entry obeys its `omitempty` rule. -/
theorem lookup_field_marshalFields (resolve : Nat → String × String × Nat)
    (e : Error) (cj : Option Json) :
    List.lookup "field" (marshalFields resolve e cj) =
      (if e.field = "" then none else some (Json.str e.field)) := by
  simp only [marshalFields, lookup_append]
  repeat' split
  all_goals simp_all [List.lookup]

/-- The `value` entry obeys its `omitempty` rule. -/
theorem lookup_value_marshalFields (resolve : Nat → String × String × Nat)
    (e : Error) (cj : Option Json) :
    List.lookup "value" (marshalFields resolve e cj) =
      (if e.value = "" then none else some (Json.str e.value)) := by
  simp only [marshalFields, lookup_append]
  repeat' split
  all_goals simp_all [List.lookup]

/-- The `context` entry obeys its `omitempty` rule (nil and zero-length maps
are both omitted). -/
theorem lookup_context_marshalFields (resolve : Nat → String × String × Nat)
    (e : Error) (cj : Option Json) :
    List.lookup "context" (marshalFields resolve e cj) =
      (match e.context with
       | none => none
       | some ctx => if ctx.isEmpty then none else some (Json.obj ctx)) := by
  simp only [marshalFields, lookup_append]
  repeat' split
  all_goals simp_all [List.lookup]

/-- The `cause` entry is the precomputed serialized cause, absent when the
cause is nil. -/
theorem lookup_cause_marshalFields (resolve : Nat → String × String × Nat)
    (e : Error) (cj : Option Json) :
    List.lookup "cause" (marshalFields resolve e cj) = cj := by
  simp only [marshalFields, lookup_append]
  repeat' split
  all_goals simp_all [List.lookup]

/-- The `user_msg` entry obeys its `omitempty` rule. -/
theorem lookup_userMsg_marshalFields (resolve : Nat → String × String × Nat)
    (e : Error) (cj : Option Json) :
    List.lookup "user_msg" (marshalFields resolve e cj) =
      (if e.userMsg = "" then none else some (Json.str e.userMsg)) := by
  simp only [marshalFields, lookup_append]
  repeat' split
  all_goals simp_all [List.lookup]

/-- The `retryable` entry obeys its `omitempty` rule (false is omitted). -/
theorem lookup_retryable_marshalFields (resolve : Nat → String × String × Nat)
    (e : Error) (cj : Option Json) :
    List.lookup "retryable" (marshalFields resolve e cj) =
      (if e.retryable then some (Json.boolean true) else none) := by
  simp only [marshalFields, lookup_append]
  repeat' split
  all_goals simp_all [List.lookup]

/-- Each rendered frame contributes at least one character. -/
theorem renderFrame_length_pos (resolve : Nat → String × String × Nat)
    (pc : Nat) : 0 < (renderFrame resolve pc).length := by
  have h2 : ("\n" : String).length = 1 := by decide
  simp only [renderFrame, String.length_append, h2]
  omega

/-- A snapshot with at least one frame renders to non-empty text. -/
theorem render_ne_empty (resolve : Nat → String × String × Nat)
    (s : Stacktrace) (h : s.frames ≠ []) :
    Stacktrace.render resolve (some s) ≠ "" := by
  obtain ⟨pc, rest, hf⟩ := List.exists_cons_of_ne_nil h
  have key : ∀ (l : List Nat) (acc : String),
      acc.length ≤ (List.foldl (fun a p => a ++ renderFrame resolve p) acc l).length := by
    intro l
    induction l with
    | nil => intro acc; simp
    | cons p ps ih =>
      intro acc
      calc acc.length ≤ (acc ++ renderFrame resolve p).length := by
            simp [String.length_append]
        _ ≤ _ := ih _
  have hlen : 0 < (Stacktrace.render resolve (some s)).length := by
    rw [Stacktrace.render]
    rw [if_neg (by simp [hf])]
    rw [hf]
    calc 0 < (renderFrame resolve pc).length := renderFrame_length_pos resolve pc
      _ = (("" : String) ++ renderFrame resolve pc).length := by
            simp [String.length_append]
      _ ≤ _ := key rest _
  intro hcontra
  rw [hcontra] at hlen
  simp at hlen

/-! ## Claim theorems -/

/-- C1 (code bug): the spec's code-validation rule — empty or
whitespace-only codes replaced by `UNKNOWN_ERROR` in every constructor — is
implemented only by `Wrap`.  `New`, `NewWithField` and `NewWithContext`
store the bad code unchanged, so the constructed error's code IS empty,
contradicting the repository's own `TestErrorCodeValidation` (which expects
`DefaultErrorCode` from all four constructors on empty input) and the
spec's invariant that `code` is never empty after construction. -/
theorem constructors_code_validation_divergence :
    (New "" "Test message" 0).code = "" ∧
    (New "   \t\n  " "Test message" 0).code = "   \t\n  " ∧
    (NewWithField "" "Test message" "field" "value" 0).code = "" ∧
    (NewWithContext "" "Test message" (some [("key", Json.str "value")]) 0).code
      = "" ∧
    validateErrorCode "" = false ∧
    validateErrorCode "   \t\n  " = false ∧
    (Wrap none "" "Wrapped message" 0 ⟨[]⟩).code = DefaultErrorCode ∧
    ("" : ErrorCode) ≠ DefaultErrorCode :=
  ⟨rfl, rfl, rfl, rfl, by decide, by decide, rfl, by decide⟩

/-- C2: the `As` method searches only the receiver's cause chain: it equals
the standard search started at `e.Cause`, anything it yields is a link of
that chain, it always fails when the cause is nil (even for a slot matching
the receiver's own type), and on a wrapped native error with a native
target slot it succeeds and yields that native error. -/
theorem as_searches_only_cause (e : Error) (t : Target) :
    e.as t = errorsAs e.cause t ∧
    (∀ r, e.as t = some r → r ∈ chain e.cause) ∧
    (e.cause = none → e.as t = none) ∧
    (∀ msg code m now st,
      (Wrap (some (.native msg)) code m now st).as Target.nativeSlot
        = some (.native msg)) := by
  refine ⟨rfl, fun r h => errorsAs_mem_chain _ _ _ h, ?_, ?_⟩
  · intro h
    simp [Error.as, h, errorsAs]
  · intro msg code m now st
    simp [Error.as, Wrap, errorsAs, targetMatches]

/-- C2 witness: `As` on an error with no cause fails even though the target
slot (`**Error`) matches the receiver's own type. -/
theorem as_searches_only_cause_witness :
    (New "X" "a" 0).as Target.libSlot = none :=
  (as_searches_only_cause (New "X" "a" 0) Target.libSlot).2.2.1 rfl

/-- C3: `RootCause` returns the error itself when it exposes no cause, and
in general the last link of the finite cause chain (which has no further
cause); in particular unwrapping a double `Wrap` of a native error returns
that native error. -/
theorem rootCause_returns_chain_end (e : GoErr) :
    (goUnwrap e = none → RootCauseGo e = e) ∧
    (chainLinks e).getLast? = some (RootCauseGo e) ∧
    goUnwrap (RootCauseGo e) = none ∧
    (∀ msg c1 m1 c2 m2 t1 t2 s1 s2,
      RootCause (some (.lib (Wrap (some (.lib (Wrap (some (.native msg)) c1 m1 t1 s1)))
        c2 m2 t2 s2))) = some (.native msg)) := by
  refine ⟨?_, getLast?_chainLinks e, goUnwrap_rootCauseGo e, ?_⟩
  · intro h
    cases e with
    | native msg => simp [RootCauseGo]
    | lib e => exact rootCauseGo_lib_none (by simpa [goUnwrap] using h)
  · intro msg c1 m1 c2 m2 t1 t2 s1 s2
    simp [RootCause, Wrap, RootCauseGo]

/-- C3 witness: a cause-less error is its own root cause. -/
theorem rootCause_returns_chain_end_witness :
    RootCauseGo (GoErr.native "original error") = GoErr.native "original error" :=
  (rootCause_returns_chain_end (GoErr.native "original error")).1 rfl

/-- C4 counterexample: the context mapping is NOT absent before the first
`WithContext` write — `New` eagerly allocates an empty map at
construction. -/
theorem new_initializes_context_eagerly :
    (New "X" "m" 0).context ≠ none := by
  simp [New]

/-- C4 (amended): `New` and `NewWithField` construct the error with a
present but empty context mapping (`make(map[string]interface{})`);
`NewWithContext` stores the caller's mapping unchanged (so nil stays nil
and empty stays empty); `WithContext` allocates the container on first
insert only when the mapping is nil. -/
theorem context_initialization (code msg f v : String) (now : Nat)
    (ctx : Option (List (String × Json))) (e : Error) (k : String) (val : Json) :
    (New code msg now).context = some [] ∧
    (NewWithField code msg f v now).context = some [] ∧
    (NewWithContext code msg ctx now).context = ctx ∧
    (e.context = none → (e.withContext k val).context = some [(k, val)]) := by
  refine ⟨rfl, rfl, rfl, ?_⟩
  intro h
  simp [Error.withContext, h, ctxSet]

/-- C4 witness: the first write to a nil context allocates a one-entry
mapping. -/
theorem context_initialization_witness :
    ((NewWithContext "X" "m" none 0).withContext "key1" (Json.str "value1")).context
      = some [("key1", Json.str "value1")] :=
  (context_initialization "X" "m" "" "" 0 none (NewWithContext "X" "m" none 0)
    "key1" (Json.str "value1")).2.2.2 rfl

/-- C5: `MarshalJSON` emits `stack` as its rendered text (not raw frame
tokens), omitting the key exactly when that text is empty (nil stack or
zero frames); a captured non-empty stack serializes to a non-empty string;
and the empty/default fields `field`, `value`, `context` (nil or empty),
`cause`, `user_msg` and `retryable` (false) are omitted. -/
theorem marshalJSON_stack_and_omissions (resolve : Nat → String × String × Nat)
    (e : Error) :
    (List.lookup "stack" (e.marshalJSON resolve) =
      (if Stacktrace.render resolve e.stack = "" then none
       else some (Json.str (Stacktrace.render resolve e.stack)))) ∧
    (e.stack = none → List.lookup "stack" (e.marshalJSON resolve) = none) ∧
    (∀ s, e.stack = some s → s.frames ≠ [] →
      ∃ txt, List.lookup "stack" (e.marshalJSON resolve) = some (Json.str txt)
        ∧ txt ≠ "") ∧
    (List.lookup "field" (e.marshalJSON resolve) =
      (if e.field = "" then none else some (Json.str e.field))) ∧
    (List.lookup "value" (e.marshalJSON resolve) =
      (if e.value = "" then none else some (Json.str e.value))) ∧
    (List.lookup "context" (e.marshalJSON resolve) = none ↔
      (e.context = none ∨ e.context = some [])) ∧
    (e.cause = none → List.lookup "cause" (e.marshalJSON resolve) = none) ∧
    (List.lookup "user_msg" (e.marshalJSON resolve) =
      (if e.userMsg = "" then none else some (Json.str e.userMsg))) ∧
    (List.lookup "retryable" (e.marshalJSON resolve) =
      (if e.retryable then some (Json.boolean true) else none)) := by
  have hstack := lookup_stack_marshalFields resolve e
    (match e.cause with
     | none => none
     | some c => some (marshalCause resolve c))
  refine ⟨hstack, ?_, ?_, lookup_field_marshalFields .., lookup_value_marshalFields ..,
    ?_, ?_, lookup_userMsg_marshalFields .., lookup_retryable_marshalFields ..⟩
  · intro h
    rw [Error.marshalJSON, hstack, h]
    simp [Stacktrace.render]
  · intro s hs hf
    refine ⟨Stacktrace.render resolve e.stack, ?_, ?_⟩
    · rw [Error.marshalJSON, hstack]
      rw [if_neg]
      rw [hs]
      exact render_ne_empty resolve s hf
    · rw [hs]
      exact render_ne_empty resolve s hf
  · rw [Error.marshalJSON, lookup_context_marshalFields]
    cases hctx : e.context with
    | none => simp
    | some ctx =>
      cases ctx with
      | nil => simp
      | cons p rest => simp
  · intro h
    rw [Error.marshalJSON, lookup_cause_marshalFields, h]

/-- C5 witness: an error with a captured one-frame stack serializes with a
non-empty `stack` string. -/
theorem marshalJSON_stack_and_omissions_witness :
    ∃ txt, List.lookup "stack"
        ((Wrap none "C" "m" 0 ⟨[7]⟩).marshalJSON (fun pc => ("main.f", "main.go", pc)))
        = some (Json.str txt) ∧ txt ≠ "" :=
  (marshalJSON_stack_and_omissions (fun pc => ("main.f", "main.go", pc))
    (Wrap none "C" "m" 0 ⟨[7]⟩)).2.2.1 ⟨[7]⟩ rfl (by decide)

/-- C6: the `Is` method returns true exactly when the target is a `*Error`
with the same code; a nil target and a native (non-`*Error`) target return
false (no panic — the method is total). -/
theorem is_matches_on_code (e : Error) (t : Option GoErr) :
    (e.is t = true ↔ ∃ te : Error, t = some (GoErr.lib te) ∧ e.code = te.code) ∧
    e.is none = false ∧
    (∀ msg, e.is (some (.native msg)) = false) := by
  refine ⟨?_, rfl, fun _ => rfl⟩
  cases t with
  | none => simp [Error.is]
  | some g =>
    cases g with
    | lib te => simp [Error.is]
    | native msg => simp [Error.is]

/-- C7: `UserMessage` returns `UserMsg` when non-empty and falls back to
`Message`; it is non-empty whenever `Message` is, and empty exactly when
both are. -/
theorem userMessage_fallback (e : Error) :
    (e.userMsg ≠ "" → e.userMessage = e.userMsg) ∧
    (e.userMsg = "" → e.userMessage = e.message) ∧
    (e.message ≠ "" → e.userMessage ≠ "") ∧
    (e.userMessage = "" ↔ e.userMsg = "" ∧ e.message = "") := by
  unfold Error.userMessage
  by_cases h : e.userMsg = "" <;> simp [h]

/-- C7 witness: with no user message set, the technical message is returned
and is non-empty. -/
theorem userMessage_fallback_witness :
    (New "VALIDATION_ERROR" "Technical message" 0).userMessage ≠ "" :=
  (userMessage_fallback (New "VALIDATION_ERROR" "Technical message" 0)).2.2.1
    (by decide)

/-- C8: `HasCode` is the boolean search over the cause chain's links
(including the head), true exactly when some link is a `*Error` carrying
the target code. -/
theorem hasCode_iff_chain_link (err : Option GoErr) (code : ErrorCode) :
    HasCode err code = (chain err).any (linkHasCode code) ∧
    (HasCode err code = true ↔
      ∃ l ∈ chain err, ∃ te : Error, l = GoErr.lib te ∧ te.code = code) := by
  have h1 : HasCode err code = (chain err).any (linkHasCode code) := by
    cases err with
    | none => rfl
    | some e => exact hasCodeGo_eq_any e code
  refine ⟨h1, ?_⟩
  rw [h1, List.any_eq_true]
  constructor
  · rintro ⟨l, hl, hlink⟩
    cases l with
    | native msg => simp [linkHasCode] at hlink
    | lib te =>
      exact ⟨.lib te, hl, te, rfl, by simpa [linkHasCode] using hlink⟩
  · rintro ⟨l, hl, te, rfl, hcode⟩
    exact ⟨.lib te, hl, by simp [linkHasCode, hcode]⟩

/-- C9: every builder mutator is exactly the in-place update of its own
target field (all other fields unchanged), the severity convenience
wrappers are `WithSeverity` at the matching constant, and re-setting a
field to its current value returns the receiver unchanged (the value-level
content of `e.withX() == e`). -/
theorem mutators_update_only_target (e : Error) (msg k sev : String) (val : Json) :
    e.withUserMessage msg = { e with userMsg := msg } ∧
    e.withContext k val
      = { e with context := some (ctxSet (e.context.getD []) k val) } ∧
    e.asRetryable = { e with retryable := true } ∧
    e.withSeverity sev = { e with severity := sev } ∧
    e.withCriticalSeverity = e.withSeverity SeverityCritical ∧
    e.withWarningSeverity = e.withSeverity SeverityWarning ∧
    e.withInfoSeverity = e.withSeverity SeverityInfo ∧
    (e.retryable = true → e.asRetryable = e) ∧
    (e.severity = sev → e.withSeverity sev = e) ∧
    (e.userMsg = msg → e.withUserMessage msg = e) := by
  obtain ⟨c, m, f, v, ctx, ts, ca, sv, st, um, r⟩ := e
  refine ⟨rfl, ?_, rfl, rfl, rfl, rfl, rfl, ?_, ?_, ?_⟩
  · cases ctx <;> rfl
  · intro h
    simp_all [Error.asRetryable]
  · intro h
    simp_all [Error.withSeverity]
  · intro h
    simp_all [Error.withUserMessage]

/-- C9 witness: marking an already-retryable error retryable again returns
it unchanged (the identity check of `TestAsRetryable`). -/
theorem mutators_update_only_target_witness :
    (New "X" "Test" 0).asRetryable.asRetryable = (New "X" "Test" 0).asRetryable :=
  (mutators_update_only_target ((New "X" "Test" 0).asRetryable) "" "" "" Json.null
    ).2.2.2.2.2.2.2.1 rfl

/-- C10: `RootCause` and `HasCode` are total on a nil error: `RootCause`
returns nil and `HasCode` returns false for every code (the traversal loops
guard on nil before dereferencing). -/
theorem rootCause_hasCode_total_on_nil :
    RootCause none = none ∧ ∀ code, HasCode none code = false :=
  ⟨rfl, fun _ => rfl⟩

end GoErrors
